import Mathlib

/-!
Verification of the presence / membership / typing subsystem of the
globe-chat client (React hooks `usePresence`, `useRoomParticipants`,
`useTypingIndicator`).

The row store is embedded as plain Lean lists of records; timestamps are
integer milliseconds; the asynchronous store calls of the source become
pure state-passing functions.  Each definition is a direct translation of
the corresponding TypeScript function, keeping its name where possible.
-/

namespace GlobeChat

/-- A `room_participants` row: one membership record per (room, user).
Mirrors the table written by `joinRoom` / deleted by `leaveRoom` in
`useRoomParticipants.ts`. -/
structure Membership where
  room_id : String
  user_name : String
  joined_at : Int
  is_admin : Bool
deriving Repr, DecidableEq

/-- A `user_presence` row: one per user, keyed by `user_name`.
Fields as upserted by `updatePresence` in `usePresence.ts` /
`useRoomParticipants.ts`. -/
structure Presence where
  user_name : String
  is_online : Bool
  last_seen : Int
  current_room_id : Option String
deriving Repr, DecidableEq

/-- A `typing_indicators` row, keyed by (`room_id`, `user_name`), as
upserted by `updateTypingStatus` in `useTypingIndicator.ts`. -/
structure TypingRow where
  room_id : String
  user_name : String
  is_typing : Bool
  last_typed : Int
deriving Repr, DecidableEq

/-- The staleness filter of spec section 4.4: `now - timestamp < windowMs`,
the comparison used verbatim in `loadOnlineUsers` (window 60000) and
`loadTypingUsers` (window 5000). -/
def isLive (t w now : Int) : Bool :=
  decide (now - t < w)

/-- `usePresence.loadOnlineUsers` (usePresence.ts:35-59): query
`user_presence` rows with `current_room_id = roomId`, then keep those with
`is_online` set and `last_seen` within one minute of `now`.  Membership is
not consulted. -/
def loadOnlineUsers (ps : List Presence) (roomId : String) (now : Int) : List Presence :=
  (ps.filter fun p => p.current_room_id == some roomId).filter
    fun p => p.is_online && decide (now - p.last_seen < 60000)

/-- An element of the `participants` state of `useRoomParticipants`:
a membership row enhanced with an `is_online` judgment and a `last_seen`
timestamp. -/
structure EnhancedParticipant where
  room_id : String
  user_name : String
  joined_at : Int
  is_admin : Bool
  is_online : Bool
  last_seen : Int
deriving Repr, DecidableEq

/-- The fallback path of `loadParticipants`
(useRoomParticipants.ts:36-60): fetch membership rows for the room and all
presence rows separately, then mark a member online when its presence row
(found by `user_name`) is online, is current in this room, and is fresh
within 60000 ms. -/
def loadParticipantsFallback (ms : List Membership) (ps : List Presence)
    (roomId : String) (now : Int) : List EnhancedParticipant :=
  (ms.filter fun m => m.room_id == roomId).map fun m =>
    match ps.find? (fun p => p.user_name == m.user_name) with
    | some q =>
        { room_id := m.room_id, user_name := m.user_name, joined_at := m.joined_at,
          is_admin := m.is_admin,
          is_online := q.is_online && (q.current_room_id == some roomId)
                        && decide (now - q.last_seen < 60000),
          last_seen := q.last_seen }
    | none =>
        { room_id := m.room_id, user_name := m.user_name, joined_at := m.joined_at,
          is_admin := m.is_admin, is_online := false, last_seen := m.joined_at }

/-- The primary path of `loadParticipants`
(useRoomParticipants.ts:22-33 and 63-79): the `user_presence!inner` join
drops members with no presence row, and the liveness judgment checks only
`is_online` and the 60000 ms window (no `current_room_id` check). -/
def loadParticipantsJoined (ms : List Membership) (ps : List Presence)
    (roomId : String) (now : Int) : List EnhancedParticipant :=
  (ms.filter fun m => m.room_id == roomId).filterMap fun m =>
    (ps.find? (fun p => p.user_name == m.user_name)).map fun q =>
      { room_id := m.room_id, user_name := m.user_name, joined_at := m.joined_at,
        is_admin := m.is_admin,
        is_online := q.is_online && decide (now - q.last_seen < 60000),
        last_seen := q.last_seen }

/-- Generic upsert on `user_presence` with conflict key `user_name`:
replace the existing row for that user, or append a new one. -/
def upsertPresence (ps : List Presence) (rec : Presence) : List Presence :=
  if ps.any (fun p => p.user_name == rec.user_name) then
    ps.map fun p => if p.user_name == rec.user_name then rec else p
  else
    ps ++ [rec]

/-- `updatePresence` of `useRoomParticipants.ts:88-107` (also
usePresence.ts:12-33): guard on an empty user name, then upsert
`{user_name, is_online, last_seen := now, current_room_id := roomId when
online else null}`. -/
def updatePresence (userName roomId : String) (isOnline : Bool) (now : Int)
    (ps : List Presence) : List Presence :=
  if userName = "" then ps
  else upsertPresence ps
    { user_name := userName, is_online := isOnline, last_seen := now,
      current_room_id := if isOnline then some roomId else none }

/-- The per-row action of the cleanup interval of `usePresence.ts:117-129`:
`update({is_online: false}).lt('last_seen', cutoff)` with
`cutoff = now - 120000`.  No filter on user or room. -/
def cleanupRow (now : Int) (p : Presence) : Presence :=
  if decide (p.last_seen < now - 120000) then { p with is_online := false } else p

/-- The cleanup tick applied to the whole `user_presence` table. -/
def cleanupTick (ps : List Presence) (now : Int) : List Presence :=
  ps.map (cleanupRow now)

/-- Number of membership rows for the key (roomId, userName). -/
def countKey (ms : List Membership) (roomId userName : String) : Nat :=
  (ms.filter fun m => m.room_id == roomId && m.user_name == userName).length

/-- `joinRoom` of `useRoomParticipants.ts:109-137`: a no-op when the user
or room name is empty or `isJoinedRef` is already set; otherwise check for
an existing `room_participants` row for (roomId, userName) and insert one
only if absent; in either case the session is marked joined.  Returns the
new `isJoinedRef` value and the new membership table. -/
def joinRoom (isJoined : Bool) (ms : List Membership) (roomId userName : String)
    (now : Int) : Bool × List Membership :=
  if userName = "" ∨ roomId = "" ∨ isJoined then (isJoined, ms)
  else if ms.any (fun m => m.room_id == roomId && m.user_name == userName) then
    (true, ms)
  else
    (true, ms ++ [{ room_id := roomId, user_name := userName, joined_at := now,
                    is_admin := false }])

/-- `n` successive `joinRoom` calls threading the `isJoinedRef` flag and
the membership table. -/
def joinN (roomId userName : String) (now : Int) :
    Nat → Bool × List Membership → Bool × List Membership
  | 0, s => s
  | n + 1, s => joinN roomId userName now n (joinRoom s.1 s.2 roomId userName now)

/-- `joinRoom` of the earlier hook revision (src/unnamed/part_004:25-43):
upsert on `room_participants` with conflict key `(room_id, user_name)` —
replace the conflicting row's payload fields, or insert a new row. -/
def joinRoomUpsert (ms : List Membership) (roomId userName : String)
    (now : Int) : List Membership :=
  if userName = "" then ms
  else if ms.any (fun m => m.room_id == roomId && m.user_name == userName) then
    ms.map fun m =>
      if m.room_id == roomId && m.user_name == userName then
        { m with is_admin := false }
      else m
  else
    ms ++ [{ room_id := roomId, user_name := userName, joined_at := now,
             is_admin := false }]

/-- `n` successive upsert-style `joinRoom` calls. -/
def joinUpsertN (roomId userName : String) (now : Int) :
    Nat → List Membership → List Membership
  | 0, ms => ms
  | n + 1, ms => joinUpsertN roomId userName now n (joinRoomUpsert ms roomId userName now)

/-- `leaveRoom` of `useRoomParticipants.ts:139-154`: delete the membership
rows matching `{room_id, user_name}`, then `updatePresence(false)` (which
upserts `{is_online: false, current_room_id: null, last_seen: now}`). -/
def leaveRoom (ms : List Membership) (ps : List Presence)
    (roomId userName : String) (now : Int) : List Membership × List Presence :=
  if userName = "" ∨ roomId = "" then (ms, ps)
  else
    (ms.filter fun m => !(m.room_id == roomId && m.user_name == userName),
     updatePresence userName roomId false now ps)

/-! ## Typing coordinator (`useTypingIndicator.ts`, first revision) -/

/-- Generic upsert on `typing_indicators` with conflict key
`(room_id, user_name)`. -/
def upsertTyping (rows : List TypingRow) (rec : TypingRow) : List TypingRow :=
  if rows.any (fun x => x.room_id == rec.room_id && x.user_name == rec.user_name) then
    rows.map fun x =>
      if x.room_id == rec.room_id && x.user_name == rec.user_name then rec else x
  else
    rows ++ [rec]

/-- `updateTypingStatus` (useTypingIndicator.ts:11-30): a no-op when the
user or room name is empty; otherwise one upsert of
`{room_id, user_name, is_typing := flag, last_typed := now}`.  The second
component logs the upsert that was issued (flag, timestamp), so that
writes can be counted. -/
def updateTypingStatus (roomId userName : String) (flag : Bool) (now : Int)
    (rows : List TypingRow) : List TypingRow × List (Bool × Int) :=
  if userName = "" ∨ roomId = "" then (rows, [])
  else (upsertTyping rows { room_id := roomId, user_name := userName,
                            is_typing := flag, last_typed := now }, [(flag, now)])

/-- Local state of one typing session: the `isTyping` flag, the deadline of
the pending inactivity timeout (if armed), the `typing_indicators` table,
and the log of upserts issued so far. -/
structure TypingSession where
  isTyping : Bool
  deadline : Option Int
  rows : List TypingRow
  writes : List (Bool × Int)
deriving Repr, DecidableEq

/-- A fresh session over an empty `typing_indicators` table. -/
def idleTyping : TypingSession :=
  { isTyping := false, deadline := none, rows := [], writes := [] }

/-- `startTyping` (useTypingIndicator.ts:32-48): return immediately when
already typing; otherwise set the flag, upsert `{is_typing: true}`, and arm
the 3000 ms inactivity timeout. -/
def startTyping (roomId userName : String) (now : Int) (s : TypingSession) :
    TypingSession :=
  if s.isTyping then s
  else
    let res := updateTypingStatus roomId userName true now s.rows
    { isTyping := true, deadline := some (now + 3000),
      rows := res.1, writes := s.writes ++ res.2 }

/-- `stopTyping` (useTypingIndicator.ts:50-59): return when not typing;
otherwise clear the flag, upsert `{is_typing: false}`, and cancel the
inactivity timeout. -/
def stopTyping (roomId userName : String) (now : Int) (s : TypingSession) :
    TypingSession :=
  if !s.isTyping then s
  else
    let res := updateTypingStatus roomId userName false now s.rows
    { isTyping := false, deadline := none,
      rows := res.1, writes := s.writes ++ res.2 }

/-- The armed inactivity timeout firing at its deadline
(useTypingIndicator.ts:44-47): clear the flag and upsert
`{is_typing: false}` at the time the timer fires. -/
def fireTypingTimeout (roomId userName : String) (s : TypingSession) :
    TypingSession :=
  match s.deadline with
  | none => s
  | some d =>
      let res := updateTypingStatus roomId userName false d s.rows
      { isTyping := false, deadline := none,
        rows := res.1, writes := s.writes ++ res.2 }

/-- `loadTypingUsers` (useTypingIndicator.ts:61-87): query
`typing_indicators` rows with this room, `is_typing = true` and
`user_name ≠ self`, then drop rows whose `last_typed` is 5000 ms or more
in the past, and keep the user names. -/
def loadTypingUsers (rows : List TypingRow) (roomId selfName : String)
    (now : Int) : List String :=
  ((rows.filter fun x =>
      x.room_id == roomId && x.is_typing && !(x.user_name == selfName)).filter
    fun x => decide (now - x.last_typed < 5000)).map
    fun x => x.user_name

/-! ## Change-feed payload handlers -/

/-- Operation kind carried by a `postgres_changes` event. -/
inductive ChangeKind where
  | ins
  | upd
  | deleted
deriving Repr, DecidableEq

/-- A change-feed notification for the `typing_indicators` table:
event type plus optional `new` / `old` row snapshots. -/
structure TypingPayload where
  eventType : ChangeKind
  newRow : Option TypingRow
  oldRow : Option TypingRow
deriving Repr, DecidableEq

/-- The typing channel payload handler of the first
`useTypingIndicator.ts` revision (lines 113-133): take
`indicator := payload.new || payload.old` and patch the rendered
`typingUsers` list directly from that snapshot — add the name when an
insert/update reports `is_typing`, remove it otherwise — without any
re-query of the store. -/
def typingPayloadHandler (selfName : String) (p : TypingPayload)
    (prev : List String) : List String :=
  match p.newRow.orElse (fun _ => p.oldRow) with
  | none => prev
  | some ind =>
      if ind.user_name == selfName then prev
      else
        match p.eventType with
        | ChangeKind.ins | ChangeKind.upd =>
            if ind.is_typing then
              if prev.contains ind.user_name then prev else prev ++ [ind.user_name]
            else prev.filter fun x => !(x == ind.user_name)
        | ChangeKind.deleted => prev.filter fun x => !(x == ind.user_name)

/-- A change-feed notification for the `user_presence` table. -/
structure PresencePayload where
  eventType : ChangeKind
  newRow : Option Presence
  oldRow : Option Presence
deriving Repr, DecidableEq

/-- The presence channel payload handler of `usePresence.ts:80-83`: the
payload is only logged; the new rendered state is whatever a fresh
`loadOnlineUsers` query of the store computes. -/
def presenceChangeHandler (_p : PresencePayload) (ps : List Presence)
    (roomId : String) (now : Int) : List Presence :=
  loadOnlineUsers ps roomId now

/-! ## Subscription lifecycle

A small operational model of the channel/timer bookkeeping of the two
hooks.  `chan` is the channel tracked by `channelRef` (the hooks keep a
single ref and remove the previous channel before subscribing a new one);
`pending` is the set of armed `setTimeout` reconnect timers as
(timer id, fire time); `torn` records that the effect cleanup has run. -/

/-- Lifecycle state of the `usePresence` subscription. -/
structure PresenceSub where
  chan : Option Nat
  nextChan : Nat
  nextTimer : Nat
  pending : List (Nat × Int)
  torn : Bool
deriving Repr, DecidableEq

def initPresenceSub : PresenceSub :=
  { chan := none, nextChan := 0, nextTimer := 0, pending := [], torn := false }

/-- `setupPresenceSubscription` (usePresence.ts:61-95): remove the channel
tracked by `channelRef` if any, then subscribe a fresh one and track it. -/
def setupPresenceSubscription (s : PresenceSub) : PresenceSub :=
  { s with chan := some s.nextChan, nextChan := s.nextChan + 1 }

/-- The `CLOSED`/`CHANNEL_ERROR` branch of the subscribe status callback
(usePresence.ts:90-93): `setTimeout(setupPresenceSubscription, 2000)`.
The timeout handle is not stored anywhere. -/
def presenceOnClosed (now : Int) (s : PresenceSub) : PresenceSub :=
  { s with pending := s.pending ++ [(s.nextTimer, now + 2000)],
           nextTimer := s.nextTimer + 1 }

/-- An armed reconnect timer firing: if still pending it is consumed and
runs `setupPresenceSubscription` (nothing in the callback checks whether
the effect was cleaned up). -/
def presenceFireTimer (tid : Nat) (s : PresenceSub) : PresenceSub :=
  if s.pending.any (fun q => q.1 == tid) then
    setupPresenceSubscription
      { s with pending := s.pending.filter fun q => !(q.1 == tid) }
  else s

/-- The `usePresence` effect cleanup (usePresence.ts:149-171): clears the
heartbeat/cleanup/refresh intervals and removes the tracked channel.  The
reconnect `setTimeout` of `presenceOnClosed` is untracked, so `pending` is
left as it is. -/
def presenceTeardown (s : PresenceSub) : PresenceSub :=
  { s with chan := none, torn := true }

/-- Lifecycle state of the `useRoomParticipants` subscriptions; `reconnectRef`
models `reconnectTimeoutRef`. -/
structure ParticipantsSub where
  chan : Option Nat
  reconnectRef : Option Nat
  nextChan : Nat
  nextTimer : Nat
  pending : List (Nat × Int)
  torn : Bool
deriving Repr, DecidableEq

def initParticipantsSub : ParticipantsSub :=
  { chan := none, reconnectRef := none, nextChan := 0, nextTimer := 0,
    pending := [], torn := false }

/-- `setupSubscriptions` (useRoomParticipants.ts:156-213): remove the
tracked channel if any and subscribe a fresh one. -/
def setupSubscriptions (s : ParticipantsSub) : ParticipantsSub :=
  { s with chan := some s.nextChan, nextChan := s.nextChan + 1 }

/-- The `CLOSED`/`CHANNEL_ERROR` branch of the participants subscribe
callback (useRoomParticipants.ts:186-188):
`reconnectTimeoutRef.current = setTimeout(setupSubscriptions, 2000)` —
the handle is stored in the ref. -/
def participantsOnClosed (now : Int) (s : ParticipantsSub) : ParticipantsSub :=
  { s with pending := s.pending ++ [(s.nextTimer, now + 2000)],
           reconnectRef := some s.nextTimer,
           nextTimer := s.nextTimer + 1 }

/-- An armed participants reconnect timer firing. -/
def participantsFireTimer (tid : Nat) (s : ParticipantsSub) : ParticipantsSub :=
  if s.pending.any (fun q => q.1 == tid) then
    setupSubscriptions { s with pending := s.pending.filter fun q => !(q.1 == tid) }
  else s

/-- The `useRoomParticipants` effect cleanup
(useRoomParticipants.ts:257-283): `clearTimeout(reconnectTimeoutRef.current)`
cancels the tracked reconnect timer, then the channels are removed. -/
def participantsTeardown (s : ParticipantsSub) : ParticipantsSub :=
  { s with
      pending :=
        match s.reconnectRef with
        | some t => s.pending.filter fun q => !(q.1 == t)
        | none => s.pending,
      reconnectRef := none, chan := none, torn := true }

/-! ## Error propagation

Each coordinator operation is a total function: the `try/catch` of the
source is embedded as a case split on a `fail` flag standing for the store
call raising, so a failing run returns normally (nothing is re-thrown).
The third component logs every write to the observable `connectionStatus`
performed by the run. -/

/-- The observable connection status of `usePresence`. -/
inductive ConnStatus where
  | connected
  | connecting
  | disconnected
deriving Repr, DecidableEq

/-- `updatePresence` of `usePresence.ts:12-33` with its `try/catch`:
on success the presence upsert lands and `setConnectionStatus('connected')`
runs; on a store error the catch block runs
`setConnectionStatus('disconnected')`. -/
def updatePresenceStep (fail : Bool) (userName roomId : String)
    (isOnline : Bool) (now : Int) (ps : List Presence) (st : ConnStatus) :
    List Presence × ConnStatus × List ConnStatus :=
  if userName = "" then (ps, st, [])
  else if fail then (ps, ConnStatus.disconnected, [ConnStatus.disconnected])
  else (updatePresence userName roomId isOnline now ps,
        ConnStatus.connected, [ConnStatus.connected])

/-- `loadOnlineUsers` of `usePresence.ts:35-59` with its `try/catch`: the
catch block only logs, so a failing run leaves the rendered list and the
status untouched and performs no status write. -/
def loadOnlineUsersStep (fail : Bool) (ps : List Presence) (roomId : String)
    (now : Int) (view : List Presence) (st : ConnStatus) :
    List Presence × ConnStatus × List ConnStatus :=
  if roomId = "" then (view, st, [])
  else if fail then (view, st, [])
  else (loadOnlineUsers ps roomId now, st, [])

/-- `joinRoom` of `useRoomParticipants.ts:109-137` with its `try/catch`:
the hook has no `connectionStatus` state, and the catch block only logs. -/
def joinRoomStep (fail : Bool) (isJoined : Bool) (ms : List Membership)
    (roomId userName : String) (now : Int) :
    Bool × List Membership × List ConnStatus :=
  if fail then (isJoined, ms, [])
  else
    let q := joinRoom isJoined ms roomId userName now
    (q.1, q.2, [])

/-- `leaveRoom` of `useRoomParticipants.ts:139-154` with its `try/catch`:
no `connectionStatus` state, catch block only logs. -/
def leaveRoomStep (fail : Bool) (ms : List Membership) (ps : List Presence)
    (roomId userName : String) (now : Int) :
    (List Membership × List Presence) × List ConnStatus :=
  if fail then ((ms, ps), [])
  else (leaveRoom ms ps roomId userName now, [])

/-- `updateTypingStatus` of `useTypingIndicator.ts:11-30` with its
`try/catch`: no `connectionStatus` state, catch block only logs. -/
def updateTypingStatusStep (fail : Bool) (roomId userName : String)
    (flag : Bool) (now : Int) (rows : List TypingRow) :
    List TypingRow × List ConnStatus :=
  if fail then (rows, [])
  else ((updateTypingStatus roomId userName flag now rows).1, [])

/-! ## Helper lemmas -/

theorem countKey_pos_iff (ms : List Membership) (roomId userName : String) :
    0 < countKey ms roomId userName ↔
      ms.any (fun m => m.room_id == roomId && m.user_name == userName) = true := by
  simp only [countKey, List.length_pos_iff_exists_mem, List.mem_filter,
    List.any_eq_true]

theorem countKey_eq_zero_iff (ms : List Membership) (roomId userName : String) :
    countKey ms roomId userName = 0 ↔
      ms.any (fun m => m.room_id == roomId && m.user_name == userName) = false := by
  have h := countKey_pos_iff ms roomId userName
  cases hb : ms.any (fun m => m.room_id == roomId && m.user_name == userName) with
  | false =>
      have hnp : ¬ 0 < countKey ms roomId userName := by
        intro hp
        have h2 := h.mp hp
        rw [hb] at h2
        exact Bool.false_ne_true h2
      simp only [eq_self_iff_true, iff_true]
      omega
  | true =>
      have hp := h.mpr hb
      constructor
      · intro h0
        omega
      · intro hft
        exact absurd hft (by simp)

theorem countKey_append_new (ms : List Membership) (roomId userName : String)
    (now : Int) :
    countKey
        (ms ++ [{ room_id := roomId, user_name := userName, joined_at := now,
                  is_admin := false }]) roomId userName
      = countKey ms roomId userName + 1 := by
  simp [countKey, List.filter_append]

theorem joinRoom_isJoined (ms : List Membership) (roomId userName : String)
    (now : Int) :
    joinRoom true ms roomId userName now = (true, ms) := by
  simp [joinRoom]

theorem joinN_fix (roomId userName : String) (now : Int) :
    ∀ (n : Nat) (ms : List Membership),
      joinN roomId userName now n (true, ms) = (true, ms) := by
  intro n
  induction n with
  | zero => intro ms; rfl
  | succ k ih =>
      intro ms
      show joinN roomId userName now k (joinRoom true ms roomId userName now)
        = (true, ms)
      rw [joinRoom_isJoined]
      exact ih ms

theorem joinRoom_first (ms : List Membership) (roomId userName : String)
    (now : Int) (hr : roomId ≠ "") (hu : userName ≠ "")
    (hle : countKey ms roomId userName ≤ 1) :
    (joinRoom false ms roomId userName now).1 = true ∧
    countKey (joinRoom false ms roomId userName now).2 roomId userName = 1 := by
  cases hb : ms.any (fun m => m.room_id == roomId && m.user_name == userName) with
  | true =>
      have hpos := (countKey_pos_iff ms roomId userName).mpr hb
      unfold joinRoom
      rw [if_neg (by simp [hu, hr]), if_pos hb]
      refine ⟨rfl, ?_⟩
      show countKey ms roomId userName = 1
      omega
  | false =>
      have hz := (countKey_eq_zero_iff ms roomId userName).mpr hb
      unfold joinRoom
      rw [if_neg (by simp [hu, hr]), if_neg (by simp [hb])]
      refine ⟨rfl, ?_⟩
      show countKey
        (ms ++ [{ room_id := roomId, user_name := userName, joined_at := now,
                  is_admin := false }]) roomId userName = 1
      rw [countKey_append_new]
      omega

theorem joinN_count (roomId userName : String) (now : Int) (hr : roomId ≠ "")
    (hu : userName ≠ "") :
    ∀ (n : Nat) (ms : List Membership), countKey ms roomId userName ≤ 1 →
      1 ≤ n →
      countKey (joinN roomId userName now n (false, ms)).2 roomId userName = 1 := by
  intro n
  induction n with
  | zero => intro ms _ hn; omega
  | succ k _ =>
      intro ms hle _
      show countKey
        (joinN roomId userName now k (joinRoom false ms roomId userName now)).2
          roomId userName = 1
      obtain ⟨h1, hc⟩ := joinRoom_first ms roomId userName now hr hu hle
      have hpair : joinRoom false ms roomId userName now
          = (true, (joinRoom false ms roomId userName now).2) := by
        exact Prod.ext h1 rfl
      rw [hpair, joinN_fix]
      exact hc

theorem countKey_upsertMap (ms : List Membership) (roomId userName : String) :
    countKey
      (ms.map fun m =>
        if m.room_id == roomId && m.user_name == userName then
          { m with is_admin := false }
        else m) roomId userName = countKey ms roomId userName := by
  induction ms with
  | nil => rfl
  | cons m t ih =>
      by_cases h : (m.room_id == roomId && m.user_name == userName) = true
      · have hm2 : (({ m with is_admin := false } : Membership).room_id == roomId &&
            ({ m with is_admin := false } : Membership).user_name == userName)
              = true := h
        simp only [countKey, List.map_cons, List.filter_cons, h, hm2, if_pos,
          List.length_cons] at ih ⊢
        omega
      · have hb := Bool.eq_false_iff.mpr h
        simp only [countKey, List.map_cons, List.filter_cons, h, hb,
          Bool.false_eq_true, if_false, ite_false] at ih ⊢
        exact ih

theorem joinRoomUpsert_count (ms : List Membership) (roomId userName : String)
    (now : Int) (hu : userName ≠ "")
    (hle : countKey ms roomId userName ≤ 1) :
    countKey (joinRoomUpsert ms roomId userName now) roomId userName = 1 := by
  cases hb : ms.any (fun m => m.room_id == roomId && m.user_name == userName) with
  | true =>
      have hpos := (countKey_pos_iff ms roomId userName).mpr hb
      unfold joinRoomUpsert
      rw [if_neg hu, if_pos hb, countKey_upsertMap]
      omega
  | false =>
      have hz := (countKey_eq_zero_iff ms roomId userName).mpr hb
      unfold joinRoomUpsert
      rw [if_neg hu, if_neg (by simp [hb]), countKey_append_new]
      omega

theorem joinUpsertN_count (roomId userName : String) (now : Int)
    (hu : userName ≠ "") :
    ∀ (n : Nat) (ms : List Membership), countKey ms roomId userName ≤ 1 →
      1 ≤ n →
      countKey (joinUpsertN roomId userName now n ms) roomId userName = 1 := by
  intro n
  induction n with
  | zero => intro ms _ hn; omega
  | succ k ih =>
      intro ms hle _
      show countKey
        (joinUpsertN roomId userName now k (joinRoomUpsert ms roomId userName now))
          roomId userName = 1
      have h1 := joinRoomUpsert_count ms roomId userName now hu hle
      cases Nat.eq_zero_or_pos k with
      | inl h0 => subst h0; exact h1
      | inr hpos => exact ih (joinRoomUpsert ms roomId userName now) (by omega) hpos

theorem upsertPresence_self_mem (ps : List Presence) (rec : Presence) :
    rec ∈ upsertPresence ps rec := by
  unfold upsertPresence
  cases hb : ps.any (fun p => p.user_name == rec.user_name) with
  | true =>
      rw [if_pos rfl]
      obtain ⟨p, hp, hk⟩ := List.any_eq_true.mp hb
      refine List.mem_map.mpr ⟨p, hp, ?_⟩
      rw [if_pos hk]
  | false =>
      rw [if_neg (by simp)]
      exact List.mem_append_right ps (List.mem_singleton.mpr rfl)

theorem upsertPresence_mem (ps : List Presence) (rec q : Presence)
    (hq : q ∈ upsertPresence ps rec) :
    q = rec ∨ (q ∈ ps ∧ (q.user_name == rec.user_name) = false) := by
  unfold upsertPresence at hq
  cases hb : ps.any (fun p => p.user_name == rec.user_name) with
  | true =>
      rw [if_pos hb] at hq
      obtain ⟨p, hp, hpq⟩ := List.mem_map.mp hq
      by_cases hk : (p.user_name == rec.user_name) = true
      · rw [if_pos hk] at hpq
        exact Or.inl hpq.symm
      · rw [if_neg hk] at hpq
        exact Or.inr ⟨hpq ▸ hp, hpq ▸ Bool.eq_false_iff.mpr hk⟩
  | false =>
      rw [if_neg (by simp [hb])] at hq
      rcases List.mem_append.mp hq with hin | hone
      · have hall := List.any_eq_false.mp hb
        exact Or.inr ⟨hin, Bool.eq_false_iff.mpr (hall q hin)⟩
      · exact Or.inl (List.mem_singleton.mp hone)

/-! ## Claim theorems -/

/-- C4: the staleness test used for the online/typing rendering decisions
is the pure function `isLive(t, w, now) = (now - t < w)`: it returns `true`
exactly when `now - t` is strictly less than `w`, it returns `false` at the
boundary `now - t = w`, and `loadOnlineUsers` (window 60000 ms) and
`loadTypingUsers` (window 5000 ms) filter with exactly this function. -/
theorem claim4_isLive_spec :
    ∀ t w now : Int,
      (isLive t w now = true ↔ now - t < w) ∧
      (now - t = w → isLive t w now = false) ∧
      (∀ (ps : List Presence) (roomId : String),
        loadOnlineUsers ps roomId now =
          (ps.filter fun p => p.current_room_id == some roomId).filter
            (fun p => p.is_online && isLive p.last_seen 60000 now)) ∧
      (∀ (rows : List TypingRow) (roomId selfName : String),
        loadTypingUsers rows roomId selfName now =
          ((rows.filter fun x =>
              x.room_id == roomId && x.is_typing && !(x.user_name == selfName)).filter
            (fun x => isLive x.last_typed 5000 now)).map fun x => x.user_name) := by
  intro t w now
  refine ⟨by simp [isLive], ?_, fun ps roomId => rfl, fun rows roomId selfName => rfl⟩
  intro h
  simp [isLive, h]

/-- C4 witness: `isLive` evaluated inside the window and at the boundary. -/
theorem claim4_witness : isLive 0 10 9 = true ∧ isLive 0 10 10 = false :=
  ⟨(claim4_isLive_spec 0 10 9).1.mpr (by decide),
   (claim4_isLive_spec 0 10 10).2.1 (by decide)⟩

/-- C10: the periodic cleanup tick of `usePresence` maps every
`user_presence` row (no filter on user or room) through `cleanupRow`, which
sets `is_online := false` on a row whose `last_seen` is more than 120000 ms
old, changes none of its other fields, and leaves a row within the window
entirely untouched. -/
theorem claim10_cleanup_frame :
    ∀ (now : Int) (p : Presence) (ps : List Presence),
      (p.last_seen < now - 120000 →
        (cleanupRow now p).is_online = false ∧
        (cleanupRow now p).user_name = p.user_name ∧
        (cleanupRow now p).last_seen = p.last_seen ∧
        (cleanupRow now p).current_room_id = p.current_room_id) ∧
      (¬ p.last_seen < now - 120000 → cleanupRow now p = p) ∧
      cleanupTick ps now = ps.map (cleanupRow now) := by
  intro now p ps
  refine ⟨fun h => ?_, fun h => ?_, rfl⟩
  · simp [cleanupRow, h]
  · simp [cleanupRow, h]

/-- C10 witness: a stale row of another user in another room is switched
offline with all other fields kept; a fresh row is untouched. -/
theorem claim10_witness :
    ((0 : Int) < 120100 - 120000 ∧
      (cleanupRow 120100 ⟨"a", true, 0, some "r2"⟩).is_online = false ∧
      (cleanupRow 120100 ⟨"a", true, 0, some "r2"⟩).user_name = "a" ∧
      (cleanupRow 120100 ⟨"a", true, 0, some "r2"⟩).last_seen = 0 ∧
      (cleanupRow 120100 ⟨"a", true, 0, some "r2"⟩).current_room_id = some "r2") ∧
    cleanupRow 120100 ⟨"b", true, 100, none⟩ = ⟨"b", true, 100, none⟩ := by
  refine ⟨⟨by decide, ?_⟩, ?_⟩
  · have h := (claim10_cleanup_frame 120100 ⟨"a", true, 0, some "r2"⟩ []).1 (by decide)
    exact ⟨h.1, h.2.1, h.2.2.1, h.2.2.2⟩
  · exact (claim10_cleanup_frame 120100 ⟨"b", true, 100, none⟩ []).2.1 (by decide)

/-- C1 counterexample: with an empty membership table, a live presence row
for user "ghost" with `current_room_id = "r1"` is an orphaned liveness
record; membership ∩ live-presence is empty, yet the `onlineUsers` view
rendered by `usePresence` contains it — so it is not the case that every
rendered participant view shows membership ∩ live-presence, nor that an
orphaned presence row is never surfaced. -/
theorem claim1_counterexample :
    (⟨"ghost", true, 100, some "r1"⟩ : Presence) ∈
        loadOnlineUsers [⟨"ghost", true, 100, some "r1"⟩] "r1" 200 ∧
    loadParticipantsFallback [] [⟨"ghost", true, 100, some "r1"⟩] "r1" 200 = [] ∧
    loadParticipantsJoined [] [⟨"ghost", true, 100, some "r1"⟩] "r1" 200 = [] := by
  decide

/-- C1 amended: in the `useRoomParticipants` views every rendered
participant corresponds to a membership row of the room (orphaned presence
rows are never surfaced there), and in the fallback view a participant is
marked online exactly when the presence row found for its user name passes
the liveness test (`is_online`, `current_room_id` equal to the room,
`last_seen` within 60000 ms), away being the remaining members; the
`onlineUsers` view of `usePresence`, however, is the live-presence set for
the room alone — characterized without reference to membership — so it
contains orphaned presence rows. -/
theorem claim1_partition :
    ∀ (ms : List Membership) (ps : List Presence) (roomId : String) (now : Int),
      (∀ e ∈ loadParticipantsFallback ms ps roomId now,
        ∃ m ∈ ms, m.room_id = roomId ∧ m.user_name = e.user_name) ∧
      (∀ e ∈ loadParticipantsJoined ms ps roomId now,
        ∃ m ∈ ms, m.room_id = roomId ∧ m.user_name = e.user_name) ∧
      (∀ e ∈ loadParticipantsFallback ms ps roomId now,
        (e.is_online = true ↔
          ∃ q, ps.find? (fun p => p.user_name == e.user_name) = some q ∧
            q.is_online = true ∧ q.current_room_id = some roomId ∧
            now - q.last_seen < 60000)) ∧
      (∀ p : Presence, p ∈ loadOnlineUsers ps roomId now ↔
        (p ∈ ps ∧ p.current_room_id = some roomId ∧ p.is_online = true ∧
          now - p.last_seen < 60000)) := by
  intro ms ps roomId now
  refine ⟨?_, ?_, ?_, ?_⟩
  · intro e he
    simp only [loadParticipantsFallback, List.mem_map, List.mem_filter] at he
    obtain ⟨m, ⟨hm, hroom⟩, hfe⟩ := he
    refine ⟨m, hm, by simpa using hroom, ?_⟩
    cases hf : ps.find? (fun p => p.user_name == m.user_name) <;>
      rw [hf] at hfe <;> simp [← hfe]
  · intro e he
    simp only [loadParticipantsJoined, List.mem_filterMap, List.mem_filter,
      Option.map_eq_some'] at he
    obtain ⟨m, ⟨hm, hroom⟩, q, hq, hfe⟩ := he
    exact ⟨m, hm, by simpa using hroom, by simp [← hfe]⟩
  · intro e he
    simp only [loadParticipantsFallback, List.mem_map, List.mem_filter] at he
    obtain ⟨m, ⟨hm, hroom⟩, hfe⟩ := he
    cases hf : ps.find? (fun p => p.user_name == m.user_name) with
    | none =>
        rw [hf] at hfe
        subst hfe
        simp [hf]
    | some q =>
        rw [hf] at hfe
        subst hfe
        simp [hf, Bool.and_eq_true, and_assoc]
  · intro p
    simp only [loadOnlineUsers, List.mem_filter, Bool.and_eq_true, beq_iff_eq,
      decide_eq_true_eq]
    tauto

/-- C2: `join()` is idempotent on membership.  When a membership row for
(roomId, userName) already exists, the check-then-insert `joinRoom` leaves
the membership table unchanged and the upsert-style `joinRoom` of the
earlier revision preserves the row count; and starting from a table with
at most one row for the key, any positive number of `join()` calls leaves
exactly one membership row for (roomId, userName). -/
theorem claim2_join_idempotent :
    ∀ (ms : List Membership) (roomId userName : String) (now : Int) (n : Nat)
      (j : Bool),
      (0 < countKey ms roomId userName →
        (joinRoom j ms roomId userName now).2 = ms) ∧
      (0 < countKey ms roomId userName →
        countKey (joinRoomUpsert ms roomId userName now) roomId userName
          = countKey ms roomId userName) ∧
      (roomId ≠ "" → userName ≠ "" → countKey ms roomId userName ≤ 1 → 1 ≤ n →
        countKey (joinN roomId userName now n (false, ms)).2 roomId userName
          = 1) ∧
      (userName ≠ "" → countKey ms roomId userName ≤ 1 → 1 ≤ n →
        countKey (joinUpsertN roomId userName now n ms) roomId userName = 1) := by
  intro ms roomId userName now n j
  refine ⟨?_, ?_, ?_, ?_⟩
  · intro h
    have hb := (countKey_pos_iff ms roomId userName).mp h
    unfold joinRoom
    by_cases hg : (userName = "" ∨ roomId = "" ∨ j = true)
    · rw [if_pos hg]
    · rw [if_neg hg, if_pos hb]
  · intro h
    have hb := (countKey_pos_iff ms roomId userName).mp h
    unfold joinRoomUpsert
    by_cases hg : userName = ""
    · rw [if_pos hg]
    · rw [if_neg hg, if_pos hb, countKey_upsertMap]
  · intro hr hu hle hn
    exact joinN_count roomId userName now hr hu n ms hle hn
  · intro hu hle hn
    exact joinUpsertN_count roomId userName now hu n ms hle hn

/-- C3: after `leave()` completes, the membership row for (roomId,
userName) is gone from the store, and the presence row for the user —
which still exists — has `is_online = false` and `current_room_id = null`. -/
theorem claim3_leave :
    ∀ (ms : List Membership) (ps : List Presence) (roomId userName : String)
      (now : Int), roomId ≠ "" → userName ≠ "" →
      (∀ m ∈ (leaveRoom ms ps roomId userName now).1,
        ¬(m.room_id = roomId ∧ m.user_name = userName)) ∧
      (∃ p ∈ (leaveRoom ms ps roomId userName now).2, p.user_name = userName) ∧
      (∀ p ∈ (leaveRoom ms ps roomId userName now).2,
        p.user_name = userName →
          p.is_online = false ∧ p.current_room_id = none) := by
  intro ms ps roomId userName now hr hu
  have hg : ¬(userName = "" ∨ roomId = "") := by simp [hu, hr]
  unfold leaveRoom
  rw [if_neg hg]
  unfold updatePresence
  rw [if_neg hu]
  refine ⟨?_, ?_, ?_⟩
  · intro m hm
    have hkeep := (List.mem_filter.mp hm).2
    intro hc
    rw [hc.1, hc.2] at hkeep
    simp at hkeep
  · exact ⟨_, upsertPresence_self_mem ps _, rfl⟩
  · intro p hp hname
    rcases upsertPresence_mem ps _ p hp with hrec | ⟨_, hne⟩
    · rw [hrec]
      exact ⟨rfl, rfl⟩
    · rw [hname] at hne
      simp at hne

/-- C3 witness: leaving room "r1" as "alice" removes the membership row
and flips alice's presence row to offline with no current room. -/
theorem claim3_witness :
    (∀ m ∈ (leaveRoom [⟨"r1", "alice", 0, false⟩]
        [⟨"alice", true, 5, some "r1"⟩] "r1" "alice" 100).1,
      ¬(m.room_id = "r1" ∧ m.user_name = "alice")) ∧
    (∃ p ∈ (leaveRoom [⟨"r1", "alice", 0, false⟩]
        [⟨"alice", true, 5, some "r1"⟩] "r1" "alice" 100).2,
      p.user_name = "alice") ∧
    (∀ p ∈ (leaveRoom [⟨"r1", "alice", 0, false⟩]
        [⟨"alice", true, 5, some "r1"⟩] "r1" "alice" 100).2,
      p.user_name = "alice" →
        p.is_online = false ∧ p.current_room_id = none) :=
  claim3_leave [⟨"r1", "alice", 0, false⟩] [⟨"alice", true, 5, some "r1"⟩]
    "r1" "alice" 100 (by decide) (by decide)

/-- C2 witness: a second join on an existing row changes nothing, and
three joins starting from an empty table leave exactly one row. -/
theorem claim2_witness :
    ((joinRoom false [⟨"r1", "alice", 0, false⟩] "r1" "alice" 0).2
        = [⟨"r1", "alice", 0, false⟩]) ∧
    (countKey (joinRoomUpsert [⟨"r1", "alice", 0, false⟩] "r1" "alice" 0)
        "r1" "alice" = countKey [⟨"r1", "alice", 0, false⟩] "r1" "alice") ∧
    countKey (joinN "r1" "alice" 0 3 (false, [])).2 "r1" "alice" = 1 ∧
    countKey (joinUpsertN "r1" "alice" 0 3 []) "r1" "alice" = 1 :=
  ⟨(claim2_join_idempotent [⟨"r1", "alice", 0, false⟩] "r1" "alice" 0 3 false).1
      (by decide),
   (claim2_join_idempotent [⟨"r1", "alice", 0, false⟩] "r1" "alice" 0 3 false).2.1
      (by decide),
   (claim2_join_idempotent [] "r1" "alice" 0 3 false).2.2.1
      (by decide) (by decide) (by decide) (by decide),
   (claim2_join_idempotent [] "r1" "alice" 0 3 false).2.2.2
      (by decide) (by decide) (by decide)⟩

/-- C5 counterexample: in `usePresence`, run setup, let the feed report
closed at time 100 (scheduling an untracked 2000 ms reconnect timeout),
then tear the effect down mid-backoff.  The pending timer is NOT canceled
(`pending` still holds it after teardown), and when it fires it creates a
new subscription even though the coordinator is torn down — refuting the
claim that the backoff timer is canceled on leave()/teardown so that no
new subscription is created afterwards. -/
theorem claim5_counterexample :
    ((presenceTeardown (presenceOnClosed 100
        (setupPresenceSubscription initPresenceSub))).torn = true) ∧
    ((presenceTeardown (presenceOnClosed 100
        (setupPresenceSubscription initPresenceSub))).pending = [(0, 2100)]) ∧
    ((presenceFireTimer 0 (presenceTeardown (presenceOnClosed 100
        (setupPresenceSubscription initPresenceSub)))).chan = some 1) ∧
    ((presenceFireTimer 0 (presenceTeardown (presenceOnClosed 100
        (setupPresenceSubscription initPresenceSub)))).torn = true) := by
  decide

/-- C5 amended: each coordinator tracks a single channel ref (setup
replaces the previous channel, so at most one subscription handle is ever
tracked); a closed feed schedules a reconnect timer that fires at
`now + 2000` and resubscribes.  In `useRoomParticipants` the timer handle
is stored in `reconnectTimeoutRef` and canceled by the effect cleanup, so
after teardown no pending timer remains and a firing timer creates no
subscription; in `usePresence` the reconnect timeout is untracked and
survives teardown. -/
theorem claim5_reconnect :
    ∀ (s : PresenceSub) (now t : Int) (tid : Nat),
      ((s.nextTimer, now + 2000) ∈ (presenceOnClosed now s).pending) ∧
      ((presenceFireTimer s.nextTimer (presenceOnClosed now s)).chan.isSome
        = true) ∧
      ((participantsTeardown (participantsOnClosed t
          (setupSubscriptions initParticipantsSub))).pending = []) ∧
      ((participantsTeardown (participantsOnClosed t
          (setupSubscriptions initParticipantsSub))).torn = true) ∧
      ((participantsFireTimer tid (participantsTeardown (participantsOnClosed t
          (setupSubscriptions initParticipantsSub)))).chan = none) := by
  intro s now t tid
  refine ⟨?_, ?_, ?_, rfl, ?_⟩
  · simp [presenceOnClosed]
  · have hmem : (presenceOnClosed now s).pending.any
        (fun q => q.1 == s.nextTimer) = true := by
      simp [presenceOnClosed]
    unfold presenceFireTimer
    rw [if_pos hmem]
    rfl
  · simp [participantsTeardown, participantsOnClosed, setupSubscriptions,
      initParticipantsSub]
  · unfold participantsFireTimer
    rw [if_neg ?hpf]
    case hpf =>
      simp [participantsTeardown, participantsOnClosed, setupSubscriptions,
        initParticipantsSub]
    rfl

/-- C7 counterexample: the typing channel handler of the first
`useTypingIndicator` revision computes the rendered typing list directly
from the payload row snapshot — two notifications differing only in the
snapshot's `is_typing` field produce different rendered states with no
query of the store — refuting the claim that the coordinator never copies
the payload snapshot into rendered state. -/
theorem claim7_counterexample :
    typingPayloadHandler "me"
        ⟨ChangeKind.upd, some ⟨"r1", "bob", true, 0⟩, none⟩ [] = ["bob"] ∧
    typingPayloadHandler "me"
        ⟨ChangeKind.upd, some ⟨"r1", "bob", false, 0⟩, none⟩ [] = [] := by
  decide

/-- C7 amended: the presence channel handler of `usePresence` treats a
notification purely as an invalidation hint — its rendered result is the
fresh `loadOnlineUsers` query of the store and is independent of the
payload — while the typing payload handler of the first
`useTypingIndicator` revision does depend on the payload snapshot. -/
theorem claim7_invalidation :
    (∀ (p q : PresencePayload) (ps : List Presence) (roomId : String)
      (now : Int),
      presenceChangeHandler p ps roomId now
          = presenceChangeHandler q ps roomId now ∧
      presenceChangeHandler p ps roomId now = loadOnlineUsers ps roomId now) ∧
    ¬(∀ (p q : TypingPayload) (prev : List String),
        typingPayloadHandler "me" p prev = typingPayloadHandler "me" q prev) := by
  refine ⟨fun p q ps roomId now => ⟨rfl, rfl⟩, fun h => ?_⟩
  have hc := h ⟨ChangeKind.upd, some ⟨"r1", "bob", true, 0⟩, none⟩
    ⟨ChangeKind.upd, some ⟨"r1", "bob", false, 0⟩, none⟩ []
  exact absurd hc (by decide)

/-- C6: two `startTyping()` calls with no intervening `stopTyping()`
perform exactly one typing upsert (the second call writes nothing), and
after the inactivity timeout fires the typing list loaded by any observer
in the room no longer contains the user. -/
theorem claim6_single_upsert :
    ∀ (roomId userName : String) (t0 t1 : Int), roomId ≠ "" → userName ≠ "" →
      ((startTyping roomId userName t1
          (startTyping roomId userName t0 idleTyping)).writes = [(true, t0)]) ∧
      (∀ (selfName : String) (now2 : Int),
        userName ∉ loadTypingUsers
          (fireTypingTimeout roomId userName
            (startTyping roomId userName t1
              (startTyping roomId userName t0 idleTyping))).rows
          roomId selfName now2) := by
  intro roomId userName t0 t1 hr hu
  have hfix : startTyping roomId userName t1
      (startTyping roomId userName t0 idleTyping)
        = startTyping roomId userName t0 idleTyping := by
    simp [startTyping, idleTyping]
  rw [hfix]
  constructor
  · simp [startTyping, idleTyping, updateTypingStatus, hu, hr, upsertTyping]
  · intro selfName now2
    simp [startTyping, idleTyping, updateTypingStatus, hu, hr, upsertTyping,
      fireTypingTimeout, loadTypingUsers]

/-- C6 witness: the burst at times 0 and 1 in room "r1" as "alice". -/
theorem claim6_witness :
    ((startTyping "r1" "alice" 1 (startTyping "r1" "alice" 0 idleTyping)).writes
        = [(true, 0)]) ∧
    ("alice" ∉ loadTypingUsers
        (fireTypingTimeout "r1" "alice"
          (startTyping "r1" "alice" 1
            (startTyping "r1" "alice" 0 idleTyping))).rows "r1" "bob" 9000) :=
  ⟨(claim6_single_upsert "r1" "alice" 0 1 (by decide) (by decide)).1,
   (claim6_single_upsert "r1" "alice" 0 1 (by decide) (by decide)).2 "bob" 9000⟩

/-- C9: a `startTyping()` call made while already typing returns before
touching the inactivity timer, so a whole burst of calls leaves the
session exactly as the first call left it — the timeout deadline stays
`t0 + 3000`, measured from the first call — and when the timer fires it
upserts `is_typing = false` at `t0 + 3000`. -/
theorem claim9_burst_deadline :
    ∀ (roomId userName : String) (t0 : Int) (rest : List Int),
      (rest.foldl (fun s t => startTyping roomId userName t s)
          (startTyping roomId userName t0 idleTyping)
        = startTyping roomId userName t0 idleTyping) ∧
      ((startTyping roomId userName t0 idleTyping).deadline = some (t0 + 3000)) ∧
      (roomId ≠ "" → userName ≠ "" →
        (fireTypingTimeout roomId userName
            (rest.foldl (fun s t => startTyping roomId userName t s)
              (startTyping roomId userName t0 idleTyping))).writes
          = [(true, t0), (false, t0 + 3000)]) := by
  intro roomId userName t0 rest
  have hTyping : (startTyping roomId userName t0 idleTyping).isTyping = true := by
    simp [startTyping, idleTyping]
  have hfold : rest.foldl (fun s t => startTyping roomId userName t s)
      (startTyping roomId userName t0 idleTyping)
        = startTyping roomId userName t0 idleTyping := by
    induction rest with
    | nil => rfl
    | cons a l ih =>
        rw [List.foldl_cons]
        have hstep : startTyping roomId userName a
            (startTyping roomId userName t0 idleTyping)
              = startTyping roomId userName t0 idleTyping := by
          unfold startTyping
          rw [if_pos ?hcond]
          case hcond => exact hTyping
        rw [hstep]
        exact ih
  refine ⟨hfold, by simp [startTyping, idleTyping], fun hr hu => ?_⟩
  rw [hfold]
  simp [startTyping, idleTyping, updateTypingStatus, hu, hr, upsertTyping,
    fireTypingTimeout]

/-- C9 witness: a burst at times 0, 1, 2 fires its auto-stop upsert at
3000, measured from the first call. -/
theorem claim9_witness :
    ([(1 : Int), 2].foldl (fun s t => startTyping "r1" "alice" t s)
        (startTyping "r1" "alice" 0 idleTyping)
      = startTyping "r1" "alice" 0 idleTyping) ∧
    ((startTyping "r1" "alice" 0 idleTyping).deadline = some 3000) ∧
    ((fireTypingTimeout "r1" "alice"
        ([(1 : Int), 2].foldl (fun s t => startTyping "r1" "alice" t s)
          (startTyping "r1" "alice" 0 idleTyping))).writes
      = [(true, 0), (false, 3000)]) :=
  ⟨(claim9_burst_deadline "r1" "alice" 0 [1, 2]).1,
   (claim9_burst_deadline "r1" "alice" 0 [1, 2]).2.1,
   (claim9_burst_deadline "r1" "alice" 0 [1, 2]).2.2 (by decide) (by decide)⟩

/-- C8 counterexample: a failing `joinRoom` (and a failing
`loadOnlineUsers`) is swallowed with no write to any `connectionStatus`
observable — the status-write log of the failing run is empty and the
status is left untouched — refuting the claim that the externally visible
effect of every coordinator failure is an update of `connectionStatus`. -/
theorem claim8_counterexample :
    joinRoomStep true false [] "r1" "alice" 0 = (false, [], []) ∧
    loadOnlineUsersStep true [⟨"ghost", true, 100, some "r1"⟩] "r1" 200 []
        ConnStatus.connected
      = ([], ConnStatus.connected, []) := by
  decide

/-- C8 amended: every modeled coordinator operation is total (the store
error is caught, nothing is re-thrown) and a failing run leaves the
rendered state unchanged.  Only the presence upsert of `usePresence`
updates `connectionStatus` — `disconnected` on failure, `connected` on
success; failing loads, joins, leaves and typing upserts perform no
status write at all. -/
theorem claim8_error_policy :
    ∀ (fail : Bool) (userName roomId : String) (isOnline : Bool) (now : Int)
      (ps view : List Presence) (st : ConnStatus) (ms : List Membership)
      (isJoined : Bool) (rows : List TypingRow) (flag : Bool),
      (userName ≠ "" →
        (updatePresenceStep fail userName roomId isOnline now ps st).2.2
            = [if fail then ConnStatus.disconnected else ConnStatus.connected] ∧
        (updatePresenceStep fail userName roomId isOnline now ps st).2.1
            = (if fail then ConnStatus.disconnected else ConnStatus.connected)) ∧
      ((updatePresenceStep true userName roomId isOnline now ps st).1 = ps) ∧
      (loadOnlineUsersStep true ps roomId now view st = (view, st, [])) ∧
      (joinRoomStep true isJoined ms roomId userName now = (isJoined, ms, [])) ∧
      (leaveRoomStep true ms ps roomId userName now = ((ms, ps), [])) ∧
      (updateTypingStatusStep true roomId userName flag now rows
        = (rows, [])) := by
  intro fail userName roomId isOnline now ps view st ms isJoined rows flag
  refine ⟨fun hu => ?_, ?_, ?_, rfl, rfl, rfl⟩
  · unfold updatePresenceStep
    rw [if_neg hu]
    cases fail <;> simp
  · unfold updatePresenceStep
    split
    · rfl
    · rfl
  · unfold loadOnlineUsersStep
    split
    · rfl
    · rfl

/-- C8 witness: the presence upsert's status writes on a failing and a
successful run. -/
theorem claim8_witness :
    ((updatePresenceStep true "alice" "r1" true 0 [] ConnStatus.connected).2.2
        = [ConnStatus.disconnected]) ∧
    ((updatePresenceStep false "alice" "r1" true 0 [] ConnStatus.connected).2.2
        = [ConnStatus.connected]) :=
  ⟨((claim8_error_policy true "alice" "r1" true 0 [] [] ConnStatus.connected []
      false [] true).1 (by decide)).1,
   ((claim8_error_policy false "alice" "r1" true 0 [] [] ConnStatus.connected []
      false [] true).1 (by decide)).1⟩

/-- C1 witness: a joined user with a live presence row is rendered from
its membership row, is marked online in the fallback view, and appears in
the `onlineUsers` view. -/
theorem claim1_witness :
    (∃ m ∈ [(⟨"r1", "alice", 0, false⟩ : Membership)],
        m.room_id = "r1" ∧
          m.user_name =
            (⟨"r1", "alice", 0, false, true, 5⟩ : EnhancedParticipant).user_name) ∧
    (⟨"alice", true, 5, some "r1"⟩ : Presence) ∈
        loadOnlineUsers [⟨"alice", true, 5, some "r1"⟩] "r1" 100 :=
  ⟨(claim1_partition [⟨"r1", "alice", 0, false⟩] [⟨"alice", true, 5, some "r1"⟩]
      "r1" 100).1 ⟨"r1", "alice", 0, false, true, 5⟩ (by decide),
   ((claim1_partition [⟨"r1", "alice", 0, false⟩] [⟨"alice", true, 5, some "r1"⟩]
      "r1" 100).2.2.2 ⟨"alice", true, 5, some "r1"⟩).mpr (by decide)⟩

end GlobeChat
